import Mathlib

/-!
Shallow embedding of the authentication and session-lifecycle subsystem of the
pizza-must ordering backend (Go), covering:

* `internal/repository/user_repository.go` and `refresh_token_repository.go`
  (the SQL store is modelled as in-memory lists; the `users.email` and
  `refresh_tokens.token` unique constraints as list searches),
* the user service in `internal/service` (`Register`, `Login`, `Logout`,
  `RefreshToken`, `ValidateToken`, `generateAccessToken`),
* `internal/middleware/auth.go` (`AuthMiddleware`) and
  `internal/middleware/ratelimit.go` (`RateLimitMiddleware` over Redis),
* the HTTP handlers of the user transport (`Register`, `Login`, `Logout`,
  `RefreshToken`), modelled by the status code and error message they write.

Conventions: time is an `Int` counting seconds; UUIDs are `String`s; bcrypt
hashing and verification are abstract function parameters (`hashFn`,
`verify`); JWTs are symbolic records carrying the header algorithm, the claim
set, and the algorithm/key under which their MAC was actually computed.
Go `error` values are modelled so that sentinel errors (created once with
`errors.New`) and `fmt.Errorf`-wrapped errors are distinct values, since Go's
`==` on errors is value identity: a wrapped error never compares equal to the
sentinel it wraps.
-/

/-- `domain.User` (fields used by the auth subsystem; timestamps omitted as no
embedded operation reads them). -/
structure User where
  id : String
  email : String
  passwordHash : String
  firstName : String
  lastName : String
  role : String
  deriving DecidableEq, Repr

/-- `domain.RefreshToken`. -/
structure RefreshToken where
  id : String
  userId : String
  token : String
  expiresAt : Int
  createdAt : Int
  revoked : Bool
  deriving DecidableEq, Repr

/-- The relational store reached through `*sql.DB`: the `users` and
`refresh_tokens` tables. -/
structure DB where
  users : List User
  tokens : List RefreshToken
  deriving DecidableEq, Repr

/-- Go `error` values of the repository and service packages.  The `err...`
constructors are the package-level sentinels (`errors.New`); `wrapped ctxt e`
is the value built by `fmt.Errorf(ctxt ++ ": %w", e)`, a fresh value that is
never Go-`==` to any sentinel; `jwtWrapped` is the same for a wrapped
jwt-library error. -/
inductive JWTBase where
  | tokenExpired
  | signatureInvalid
  | tokenSignatureInvalid
  | tokenUnverifiable
  | tokenInvalidClaims
  | tokenMalformed
  deriving DecidableEq, Repr

/-- Error values returned by the `github.com/golang-jwt/jwt/v5` library.
`sentinel` is a package-level sentinel such as `jwt.ErrTokenExpired`;
`wrappedMsg`/`wrappedErr` are values built by the library's `newError`
helper, which always calls `fmt.Errorf` with `%w` verbs, so every error
returned by `jwt.Parse`/`jwt.ParseWithClaims` is a fresh wrapped value:
`errors.Is` would unwrap it, but Go `==` against a sentinel is false.
`plainMsg` is a plain `fmt.Errorf` error with no jwt sentinel inside
(such as the one returned by the service's keyfunc). -/
inductive JWTError where
  | sentinel (b : JWTBase)
  | wrappedMsg (b : JWTBase) (msg : String)
  | wrappedErr (b : JWTBase) (inner : JWTError)
  | plainMsg (msg : String)
  deriving DecidableEq, Repr

inductive GoErr where
  | errUserNotFound
  | errUserAlreadyExists
  | errRefreshTokenNotFound
  | errRefreshTokenRevoked
  | errInvalidCredentials
  | errInvalidToken
  | errTokenExpired
  | wrapped (ctxt : String) (inner : GoErr)
  | jwtWrapped (ctxt : String) (inner : JWTError)
  deriving DecidableEq, Repr

/-- The `Error()` string of a jwt sentinel, as in jwt/v5 `errors.go`. -/
def JWTBase.message : JWTBase → String
  | .tokenExpired => "token is expired"
  | .signatureInvalid => "signature is invalid"
  | .tokenSignatureInvalid => "token signature is invalid"
  | .tokenUnverifiable => "token is unverifiable"
  | .tokenInvalidClaims => "token has invalid claims"
  | .tokenMalformed => "token is malformed"

def JWTError.message : JWTError → String
  | .sentinel b => b.message
  | .wrappedMsg b m => b.message ++ ": " ++ m
  | .wrappedErr b e => b.message ++ ": " ++ e.message
  | .plainMsg m => m

/-- The `Error()` string of each modelled Go error value. -/
def GoErr.message : GoErr → String
  | .errUserNotFound => "user not found"
  | .errUserAlreadyExists => "user with this email already exists"
  | .errRefreshTokenNotFound => "refresh token not found"
  | .errRefreshTokenRevoked => "refresh token has been revoked"
  | .errInvalidCredentials => "invalid email or password"
  | .errInvalidToken => "invalid token"
  | .errTokenExpired => "token has expired"
  | .wrapped c e => c ++ ": " ++ e.message
  | .jwtWrapped c e => c ++ ": " ++ e.message

namespace UserRepository

/-- `userRepository.FindByEmail`: `SELECT ... FROM users WHERE email = $1`;
`sql.ErrNoRows` is mapped to `ErrUserNotFound`. -/
def FindByEmail (db : DB) (email : String) : Except GoErr User :=
  match db.users.find? (fun u => u.email == email) with
  | some u => .ok u
  | none => .error .errUserNotFound

/-- `userRepository.FindByID`: `SELECT ... FROM users WHERE id = $1`. -/
def FindByID (db : DB) (id : String) : Except GoErr User :=
  match db.users.find? (fun u => u.id == id) with
  | some u => .ok u
  | none => .error .errUserNotFound

/-- `userRepository.Create`: `INSERT INTO users ...`; a violation of the
`users_email_key` unique constraint is mapped to `ErrUserAlreadyExists`. -/
def Create (db : DB) (u : User) : Except GoErr DB :=
  if db.users.any (fun v => v.email == u.email) then .error .errUserAlreadyExists
  else .ok { db with users := db.users ++ [u] }

end UserRepository

namespace RefreshTokenRepository

/-- `refreshTokenRepository.Create`: `INSERT INTO refresh_tokens ...`. -/
def Create (db : DB) (rt : RefreshToken) : Except GoErr DB :=
  .ok { db with tokens := db.tokens ++ [rt] }

/-- `refreshTokenRepository.FindByToken`: `SELECT ... WHERE token = $1`;
no row maps to `ErrRefreshTokenNotFound`, and a row with `revoked = TRUE`
to `ErrRefreshTokenRevoked`. -/
def FindByToken (db : DB) (tok : String) : Except GoErr RefreshToken :=
  match db.tokens.find? (fun rt => rt.token == tok) with
  | none => .error .errRefreshTokenNotFound
  | some rt => if rt.revoked then .error .errRefreshTokenRevoked else .ok rt

/-- `refreshTokenRepository.Revoke`: `UPDATE refresh_tokens SET revoked = TRUE
WHERE token = $1`; `rowsAffected == 0` maps to `ErrRefreshTokenNotFound`
(an already-revoked matching row still counts as affected). -/
def Revoke (db : DB) (tok : String) : Except GoErr DB :=
  if db.tokens.any (fun rt => rt.token == tok) then
    .ok { db with tokens :=
           db.tokens.map (fun rt =>
             if rt.token == tok then { rt with revoked := true } else rt) }
  else .error .errRefreshTokenNotFound

end RefreshTokenRepository

/-- JWT signing algorithms that can appear in a token header. -/
inductive Alg where
  | HS256
  | HS384
  | HS512
  | RS256
  | ES256
  | EdDSA
  | algNone
  deriving DecidableEq, Repr

/-- Whether the registered `jwt.SigningMethod` for this algorithm name has
dynamic type `*jwt.SigningMethodHMAC` (the type asserted by both keyfuncs). -/
def Alg.isHMAC : Alg → Bool
  | .HS256 => true
  | .HS384 => true
  | .HS512 => true
  | _ => false

/-- Symbolic JWT: the header algorithm, the claim set (`user_id`, `role`,
`exp`, `iat`; a missing claim is `none`), and the algorithm and key under
which the trailing MAC was actually computed.  Verification of the signature
with method `m` and key `k` succeeds exactly when `sigAlg = m` and
`sigKey = k`. -/
structure JWT where
  alg : Alg
  userID : Option String
  role : Option String
  exp : Option Int
  iat : Option Int
  sigAlg : Alg
  sigKey : String
  deriving DecidableEq, Repr

/-- A wire string handed to `jwt.Parse`: either not a well-formed compact
serialization at all, or the encoding of a symbolic token. -/
inductive TokenInput where
  | garbage (s : String)
  | tok (t : JWT)
  deriving DecidableEq, Repr

/-- jwt/v5 `Parser.ParseWithClaims` with default options: structural parse,
keyfunc, signature verification with the header's method, then claim
validation (only `exp` is relevant here: with no leeway a token is expired
exactly when `now < exp` fails; a missing `exp` passes).  Every error is
produced through the library's `newError`, i.e. reaches the caller
`fmt`-wrapped, never as a bare sentinel. -/
def jwtParse (keyfunc : JWT → Except JWTError String) (now : Int) :
    TokenInput → Except JWTError JWT
  | .garbage _ =>
    .error (.wrappedMsg .tokenMalformed "token contains an invalid number of segments")
  | .tok t =>
    match keyfunc t with
    | .error e => .error (.wrappedErr .tokenUnverifiable e)
    | .ok key =>
      if t.sigAlg == t.alg && t.sigKey == key then
        match t.exp with
        | none => .ok t
        | some e =>
          if now < e then .ok t
          else .error (.wrappedErr .tokenInvalidClaims (.sentinel .tokenExpired))
      else .error (.wrappedErr .tokenSignatureInvalid (.sentinel .signatureInvalid))

/-- The keyfunc of `AuthMiddleware` (`internal/middleware/auth.go`): any
method that is not `*jwt.SigningMethodHMAC` yields `jwt.ErrSignatureInvalid`
(the bare sentinel) before any key is produced; otherwise the single shared
secret is returned. -/
def gateKeyfunc (jwtSecret : String) (t : JWT) : Except JWTError String :=
  if t.alg.isHMAC then .ok jwtSecret
  else .error (.sentinel .signatureInvalid)

/-- The keyfunc of `userService.ValidateToken`: a non-HMAC method yields
`fmt.Errorf("unexpected signing method: %v", ...)`, again before any key is
produced. -/
def serviceKeyfunc (jwtSecret : String) (t : JWT) : Except JWTError String :=
  if t.alg.isHMAC then .ok jwtSecret
  else .error (.plainMsg "unexpected signing method")

/-- `service.AccessTokenExpiration = 15 * time.Minute`, in seconds. -/
def AccessTokenExpiration : Int := 15 * 60

/-- `service.RefreshTokenExpiration = 7 * 24 * time.Hour`, in seconds. -/
def RefreshTokenExpiration : Int := 7 * 24 * 60 * 60

/-- `userService.generateAccessToken`: an HS256 token signed with the service
secret, carrying exactly `user_id`, `role`, `exp = now + 15m`, `iat = now`. -/
def generateAccessToken (jwtSecret : String) (now : Int) (user : User) : JWT :=
  { alg := .HS256
    userID := some user.id
    role := some user.role
    exp := some (now + AccessTokenExpiration)
    iat := some now
    sigAlg := .HS256
    sigKey := jwtSecret }

namespace UserService

/-- `userService.Register`.  The store is read twice (lookup, then insert);
to model the concurrent interleaving the two round-trips see the snapshots
`dbLookup` and `dbCreate` of the store — the isolated sequential call is
`Register hashFn newId dbLookup dbLookup ...` with both snapshots equal.
`hashFn` abstracts `bcrypt.GenerateFromPassword` (cost 10) and `newId` the
freshly drawn `uuid.New()`. -/
def Register (hashFn : String → String) (newId : String)
    (dbLookup dbCreate : DB) (email password firstName lastName : String) :
    Except GoErr (User × DB) :=
  match UserRepository.FindByEmail dbLookup email with
  | .ok _ => .error .errUserAlreadyExists
  | .error e =>
    if e = .errUserNotFound then
      let user : User :=
        { id := newId, email := email, passwordHash := hashFn password,
          firstName := firstName, lastName := lastName, role := "user" }
      match UserRepository.Create dbCreate user with
      | .ok db2 => .ok (user, db2)
      | .error e2 => .error (.wrapped "failed to create user" e2)
    else .error (.wrapped "failed to check existing user" e)

/-- `userService.Login`.  `verify` abstracts `bcrypt.CompareHashAndPassword`
(true = match); `rtId`/`rtString` are the two freshly drawn UUIDs for the
minted refresh token. -/
def Login (verify : String → String → Bool) (jwtSecret : String) (now : Int)
    (rtId rtString : String) (db : DB) (email password : String) :
    Except GoErr (JWT × String × User × DB) :=
  match UserRepository.FindByEmail db email with
  | .error e =>
    if e = .errUserNotFound then .error .errInvalidCredentials
    else .error (.wrapped "failed to find user" e)
  | .ok user =>
    if verify user.passwordHash password then
      let accessToken := generateAccessToken jwtSecret now user
      let rt : RefreshToken :=
        { id := rtId, userId := user.id, token := rtString,
          expiresAt := now + RefreshTokenExpiration, createdAt := now,
          revoked := false }
      match RefreshTokenRepository.Create db rt with
      | .ok db2 => .ok (accessToken, rtString, user, db2)
      | .error e => .error (.wrapped "failed to generate refresh token" e)
    else .error .errInvalidCredentials

/-- `userService.Logout`: revoke the refresh token; `ErrRefreshTokenNotFound`
is swallowed (already logged out). -/
def Logout (db : DB) (refreshToken : String) : Except GoErr DB :=
  match RefreshTokenRepository.Revoke db refreshToken with
  | .ok db2 => .ok db2
  | .error e =>
    if e = .errRefreshTokenNotFound then .ok db
    else .error (.wrapped "failed to revoke refresh token" e)

/-- `userService.ValidateToken`: `jwt.ParseWithClaims` with the service
keyfunc; any parse error is returned wrapped in "failed to parse token".
(The subsequent `!token.Valid` re-check cannot fire when `Parse` returned no
error.) -/
def ValidateToken (jwtSecret : String) (now : Int) (input : TokenInput) :
    Except GoErr JWT :=
  match jwtParse (serviceKeyfunc jwtSecret) now input with
  | .error e => .error (.jwtWrapped "failed to parse token" e)
  | .ok t => .ok t

/-- `userService.RefreshToken`: look the token up (`ErrRefreshTokenNotFound`
and `ErrRefreshTokenRevoked` both collapse to `ErrInvalidToken`), then check
expiry (`time.Now().After(expiresAt)`, i.e. strictly `expiresAt < now`), then
look the owning user up and issue a fresh access token.  No store mutation is
performed: the resulting store is returned to make that frame condition a
statable fact. -/
def RefreshToken (jwtSecret : String) (now : Int) (db : DB)
    (refreshTokenString : String) : Except GoErr (JWT × DB) :=
  match RefreshTokenRepository.FindByToken db refreshTokenString with
  | .error e =>
    if e = .errRefreshTokenNotFound ∨ e = .errRefreshTokenRevoked then
      .error .errInvalidToken
    else .error (.wrapped "failed to find refresh token" e)
  | .ok rt =>
    if rt.expiresAt < now then .error .errTokenExpired
    else
      match UserRepository.FindByID db rt.userId with
      | .error e => .error (.wrapped "failed to find user" e)
      | .ok user => .ok (generateAccessToken jwtSecret now user, db)

end UserService

/-- The observable part of an HTTP response: status code and the `message`
field of the structured JSON body (`respondWithError`; for success responses
the payload is abstracted to the empty string).  The body's `code` field is a
function of the status and its `timestamp` a function of the response time,
so two responses with equal status and message at the same instant have
byte-identical bodies. -/
structure HTTPResponse where
  status : Nat
  message : String
  deriving DecidableEq, Repr

namespace UserHandler

/-- `UserHandler.Register` after successful decode/validation: the service
error is matched by its `Error()` string against
"user with this email already exists" (409); any other error is 500. -/
def Register (hashFn : String → String) (newId : String)
    (dbLookup dbCreate : DB) (email password firstName lastName : String) :
    HTTPResponse :=
  match UserService.Register hashFn newId dbLookup dbCreate email password firstName lastName with
  | .error e =>
    if e.message = "user with this email already exists" then
      { status := 409, message := "user with this email already exists" }
    else { status := 500, message := "failed to register user" }
  | .ok _ => { status := 201, message := "" }

/-- `UserHandler.Login` after successful decode/validation: the sentinel
`service.ErrInvalidCredentials` (compared with Go `==`) maps to 401; any
other error to 500. -/
def Login (verify : String → String → Bool) (jwtSecret : String) (now : Int)
    (rtId rtString : String) (db : DB) (email password : String) :
    HTTPResponse :=
  match UserService.Login verify jwtSecret now rtId rtString db email password with
  | .error e =>
    if e = .errInvalidCredentials then
      { status := 401, message := "invalid email or password" }
    else { status := 500, message := "failed to login" }
  | .ok _ => { status := 200, message := "" }

/-- `UserHandler.Logout` after successful decode: any service error is 500;
otherwise 200 with "logged out successfully". -/
def Logout (db : DB) (refreshToken : String) : HTTPResponse :=
  match UserService.Logout db refreshToken with
  | .error _ => { status := 500, message := "failed to logout" }
  | .ok _ => { status := 200, message := "logged out successfully" }

/-- `UserHandler.RefreshToken` after successful decode/validation:
`ErrInvalidToken` and `ErrTokenExpired` (sentinel `==`) map to 401 with
distinct messages; anything else to 500. -/
def RefreshToken (jwtSecret : String) (now : Int) (db : DB)
    (refreshTokenString : String) : HTTPResponse :=
  match UserService.RefreshToken jwtSecret now db refreshTokenString with
  | .error e =>
    if e = .errInvalidToken then
      { status := 401, message := "invalid refresh token" }
    else if e = .errTokenExpired then
      { status := 401, message := "refresh token expired" }
    else { status := 500, message := "failed to refresh token" }
  | .ok _ => { status := 200, message := "" }

end UserHandler

/-- Outcome of the auth gate for one request. -/
inductive AuthResult where
  | rejected (status : Nat) (message : String)
  | authenticated (userID role : String)
  deriving DecidableEq, Repr

/-- `strings.Split` on a single separator character: splits around every
occurrence, keeping empty segments. -/
def splitOnChar (c : Char) : List Char → List (List Char)
  | [] => [[]]
  | x :: xs =>
    let r := splitOnChar c xs
    if x = c then [] :: r
    else (x :: r.headD []) :: r.tail

/-- `middleware.AuthMiddleware`: header presence, exact `Bearer <token>`
shape, `jwt.Parse` with the gate keyfunc, then the `err == jwt.ErrTokenExpired`
comparison (Go `==`, value identity), then extraction of the `user_id` and
`role` claims as strings.  `decode` abstracts the mapping from the wire token
string to its parsed form. -/
def AuthMiddleware (decode : String → TokenInput) (jwtSecret : String)
    (now : Int) (authHeader : String) : AuthResult :=
  if authHeader = "" then .rejected 401 "missing authorization header"
  else
    let parts := splitOnChar ' ' authHeader.data
    if parts.length = 2 ∧ parts.headD [] = "Bearer".data then
      match jwtParse (gateKeyfunc jwtSecret) now (decode (String.mk (parts.getD 1 []))) with
      | .error e =>
        if e = .sentinel .tokenExpired then .rejected 401 "token expired"
        else .rejected 401 "invalid token"
      | .ok t =>
        match t.userID with
        | none => .rejected 401 "invalid token claims"
        | some uid =>
          match t.role with
          | none => .rejected 401 "invalid token claims"
          | some role => .authenticated uid role
    else .rejected 401 "invalid authorization header format"

/-- One Redis key's value for the limiter: the hit count and the absolute
expiry instant (`none` = no TTL, as after a bare `INCR` that created the
key). -/
structure RedisEntry where
  count : Int
  expiry : Option Int
  deriving DecidableEq, Repr

/-- The Redis keyspace, as an association list in which the first binding of
a key is its current value. -/
abbrev Redis := List (String × RedisEntry)

/-- The stored binding of `key`, ignoring expiry. -/
def rawLookup (r : Redis) (key : String) : Option RedisEntry :=
  (r.find? (fun p => p.fst == key)).map Prod.snd

/-- The live value of `key` at `now`: a key whose expiry has passed
(`expiry ≤ now`) behaves as absent. -/
def redisLookup (r : Redis) (key : String) (now : Int) : Option RedisEntry :=
  match rawLookup r key with
  | none => none
  | some e =>
    match e.expiry with
    | none => some e
    | some t => if now < t then some e else none

/-- Store a binding (shadowing any previous one). -/
def redisSet (r : Redis) (key : String) (e : RedisEntry) : Redis :=
  (key, e) :: r

/-- Redis `INCR`: an absent or expired key is recreated with count 1 and no
TTL; a live key's count is incremented, its TTL untouched. -/
def redisIncr (r : Redis) (key : String) (now : Int) : Int × Redis :=
  match redisLookup r key now with
  | none => (1, redisSet r key { count := 1, expiry := none })
  | some e => (e.count + 1, redisSet r key { count := e.count + 1, expiry := e.expiry })

/-- Redis `EXPIRE`: set the TTL of a live key; no-op on an absent key. -/
def redisExpire (r : Redis) (key : String) (now dur : Int) : Redis :=
  match redisLookup r key now with
  | none => r
  | some e => redisSet r key { count := e.count, expiry := some (now + dur) }

/-- Redis `TTL` in seconds: `-2` when the key is absent, `-1` when it has no
expiry. -/
def redisTTL (r : Redis) (key : String) (now : Int) : Int :=
  match redisLookup r key now with
  | none => -2
  | some e =>
    match e.expiry with
    | none => -1
    | some t => t - now

/-- `middleware.RateLimitConfig` (the window in seconds). -/
structure RateLimitConfig where
  RequestsPerWindow : Int
  Window : Int
  deriving DecidableEq, Repr

/-- Observable outcome of the limiter for one request: `allowed remaining`
passes the request on with `X-RateLimit-Remaining = remaining`;
`rejected retryAfter` writes status 429 with `Retry-After = retryAfter`
seconds and `X-RateLimit-Remaining = 0`. -/
inductive Decision where
  | allowed (remaining : Int)
  | rejected (retryAfter : Int)
  deriving DecidableEq, Repr

/-- One pass of `middleware.RateLimitMiddleware` for a request on `key` at
`now` (the Redis round-trips are assumed to succeed; on a Redis error the Go
code fails open, a path outside this model): increment, set the TTL if the
counter became 1, reject when the post-increment count exceeds the threshold,
with `Retry-After` read back from the key's TTL. -/
def RateLimitMiddleware (cfg : RateLimitConfig) (r : Redis) (key : String)
    (now : Int) : Decision × Redis :=
  let res := redisIncr r key now
  let count := res.fst
  let r2 := if count = 1 then redisExpire res.snd key now cfg.Window else res.snd
  if cfg.RequestsPerWindow < count then
    (.rejected (redisTTL r2 key now), r2)
  else
    (.allowed (cfg.RequestsPerWindow - count), r2)

/-- Run the limiter over a sequence of request instants for one key,
threading the Redis state. -/
def runLimiter (cfg : RateLimitConfig) (key : String) :
    List Int → Redis → List Decision × Redis
  | [], r => ([], r)
  | t :: ts, r =>
    let step := RateLimitMiddleware cfg r key t
    let rest := runLimiter cfg key ts step.snd
    (step.fst :: rest.fst, rest.snd)

/-- Revoking every stored token whose string matches: the store after
`UPDATE refresh_tokens SET revoked = TRUE WHERE token = $1` (and, when no row
matches, after a vacuous update). -/
def revokeAllMatching (db : DB) (s : String) : DB :=
  { db with tokens :=
      db.tokens.map (fun rt =>
        if rt.token == s then { rt with revoked := true } else rt) }

/-- The decision trace the limiter should emit for requests inside one live
window whose counter stands at `c` and which expires at `E`. -/
def expectedDecisions (n e : Int) : Int → List Int → List Decision
  | _, [] => []
  | c, t :: ts =>
    (if n < c + 1 then Decision.rejected (e - t) else Decision.allowed (n - (c + 1)))
      :: expectedDecisions n e (c + 1) ts

/-- Sample bcrypt stand-in used by concrete witnesses. -/
def sampleHash (s : String) : String := "h-" ++ s

/-- Sample bcrypt verification matching `sampleHash`. -/
def sampleVerify (h p : String) : Bool := h == sampleHash p

/-- Sample registered user. -/
def alice : User :=
  { id := "id-alice", email := "alice@x.com", passwordHash := sampleHash "Secret123",
    firstName := "Alice", lastName := "Smith", role := "user" }

/-- Sample stored, unrevoked refresh token owned by `alice`. -/
def sampleRT : RefreshToken :=
  { id := "rt-id", userId := "id-alice", token := "rt-1",
    expiresAt := 604800, createdAt := 0, revoked := false }

/-- Sample store holding `alice` and her refresh token. -/
def sampleDB : DB := { users := [alice], tokens := [sampleRT] }

/-- The access token `alice` receives on a sample login at time 0. -/
def sampleAccess : JWT := generateAccessToken "s" 0 alice

/-- The store after that sample login minted refresh token `rt-2`. -/
def sampleDBAfterLogin : DB :=
  { users := [alice],
    tokens := [sampleRT,
      { id := "rid", userId := "id-alice", token := "rt-2",
        expiresAt := 604800, createdAt := 0, revoked := false }] }

/-! ## Theorems -/

/-- Mapping every element of a list to itself leaves the list unchanged. -/
theorem map_eq_self_of {α : Type} (l : List α) (f : α → α) (h : ∀ a ∈ l, f a = a) :
    l.map f = l := by
  induction l with
  | nil => rfl
  | cons a t ih =>
    rw [List.map_cons, h a (List.mem_cons_self a t),
      ih (fun x hx => h x (List.mem_cons_of_mem a hx))]

/-- `Logout` always succeeds, returning the store with every matching token
marked revoked (which is the unchanged store when nothing matches). -/
theorem logout_eq (db : DB) (s : String) :
    UserService.Logout db s = .ok (revokeAllMatching db s) := by
  unfold UserService.Logout RefreshTokenRepository.Revoke
  by_cases h : db.tokens.any (fun rt => rt.token == s)
  · simp [h, revokeAllMatching]
  · have hnone : ∀ rt ∈ db.tokens, (rt.token == s) = false := by
      intro rt hrt
      by_contra hne
      exact h (List.any_eq_true.mpr ⟨rt, hrt, by simpa using hne⟩)
    have hid : db.tokens.map
        (fun rt => if rt.token == s then { rt with revoked := true } else rt) = db.tokens :=
      map_eq_self_of _ _ (fun rt hrt => by simp [hnone rt hrt])
    rw [if_neg h]
    show Except.ok db = Except.ok (revokeAllMatching db s)
    unfold revokeAllMatching
    rw [hid]

/-- Revoking the matching tokens twice is the same as revoking them once. -/
theorem revokeAllMatching_idem (db : DB) (s : String) :
    revokeAllMatching (revokeAllMatching db s) s = revokeAllMatching db s := by
  unfold revokeAllMatching
  simp only [List.map_map]
  congr 1
  apply List.map_congr_left
  intro rt _
  by_cases h : rt.token == s <;> simp [Function.comp, h]

/-- C4: Logout is idempotent and always succeeds: a missing token is treated
as already logged out with no state change, an existing token is marked
revoked, a second Logout on the same token succeeds without further change,
and the logout endpoint answers 200 in every one of these cases. -/
theorem logout_idempotent_always_succeeds (db : DB) (s : String) :
    UserService.Logout db s = .ok (revokeAllMatching db s) ∧
    ((∀ rt ∈ db.tokens, rt.token ≠ s) → revokeAllMatching db s = db) ∧
    (∀ rt ∈ (revokeAllMatching db s).tokens, rt.token = s → rt.revoked = true) ∧
    UserService.Logout (revokeAllMatching db s) s = .ok (revokeAllMatching db s) ∧
    UserHandler.Logout db s = ⟨200, "logged out successfully"⟩ ∧
    UserHandler.Logout (revokeAllMatching db s) s = ⟨200, "logged out successfully"⟩ := by
  refine ⟨logout_eq db s, ?_, ?_, ?_, ?_, ?_⟩
  · intro h
    have hid : db.tokens.map
        (fun rt => if rt.token == s then { rt with revoked := true } else rt) = db.tokens :=
      map_eq_self_of _ _ (fun rt hrt => by simp [h rt hrt])
    unfold revokeAllMatching
    rw [hid]
  · intro rt hrt hts
    unfold revokeAllMatching at hrt
    simp only [List.mem_map] at hrt
    obtain ⟨a, _, rfl⟩ := hrt
    by_cases h : a.token == s
    · simp [h]
    · simp [h] at hts ⊢
      exact absurd hts (by simpa using h)
  · rw [logout_eq (revokeAllMatching db s) s, revokeAllMatching_idem]
  · simp [UserHandler.Logout, logout_eq]
  · simp [UserHandler.Logout, logout_eq]

/-- Closed instance of C4 at a concrete store and token. -/
theorem logout_idempotent_always_succeeds_witness :
    UserService.Logout sampleDB "rt-1" = .ok (revokeAllMatching sampleDB "rt-1") ∧
    ((∀ rt ∈ sampleDB.tokens, rt.token ≠ "rt-1") →
      revokeAllMatching sampleDB "rt-1" = sampleDB) ∧
    (∀ rt ∈ (revokeAllMatching sampleDB "rt-1").tokens,
      rt.token = "rt-1" → rt.revoked = true) ∧
    UserService.Logout (revokeAllMatching sampleDB "rt-1") "rt-1" =
      .ok (revokeAllMatching sampleDB "rt-1") ∧
    UserHandler.Logout sampleDB "rt-1" = ⟨200, "logged out successfully"⟩ ∧
    UserHandler.Logout (revokeAllMatching sampleDB "rt-1") "rt-1" =
      ⟨200, "logged out successfully"⟩ :=
  logout_idempotent_always_succeeds sampleDB "rt-1"

/-- C1: a registration whose email is taken fails as `AlreadyExists`/409 on
the sequential lookup path; but on the concurrent path — lookup misses, the
store's unique constraint then rejects the insert — `Register` wraps
`ErrUserAlreadyExists` in "failed to create user: %w", the handler's exact
string comparison no longer matches, and the response is a generic 500
instead of the 409 the claim requires. -/
theorem register_race_surfaces_internal_error :
    UserHandler.Register (fun s => "h-" ++ s) "id2"
        ⟨[⟨"id1", "alice@x.com", "h", "Alice", "A", "user"⟩], []⟩
        ⟨[⟨"id1", "alice@x.com", "h", "Alice", "A", "user"⟩], []⟩
        "alice@x.com" "pw" "Alice" "A" = ⟨409, "user with this email already exists"⟩ ∧
    UserService.Register (fun s => "h-" ++ s) "id2" ⟨[], []⟩
        ⟨[⟨"id1", "alice@x.com", "h", "Alice", "A", "user"⟩], []⟩
        "alice@x.com" "pw" "Alice" "A" =
      .error (.wrapped "failed to create user" .errUserAlreadyExists) ∧
    UserHandler.Register (fun s => "h-" ++ s) "id2" ⟨[], []⟩
        ⟨[⟨"id1", "alice@x.com", "h", "Alice", "A", "user"⟩], []⟩
        "alice@x.com" "pw" "Alice" "A" = ⟨500, "failed to register user"⟩ :=
  ⟨rfl, rfl, rfl⟩

/-- C2: Login with an unknown email and Login with a known email but a
failing password check return the very same sentinel error, and the handler
maps both to the same 401 response, making the two failure causes
indistinguishable to the caller. -/
theorem login_failure_causes_indistinguishable
    (verify : String → String → Bool) (jwtSecret : String) (now : Int)
    (rtId rtString : String) (db : DB) (emailU pU emailK pK : String) (u : User)
    (hunknown : UserRepository.FindByEmail db emailU = .error .errUserNotFound)
    (hknown : UserRepository.FindByEmail db emailK = .ok u)
    (hwrong : verify u.passwordHash pK = false) :
    UserService.Login verify jwtSecret now rtId rtString db emailU pU =
      .error .errInvalidCredentials ∧
    UserService.Login verify jwtSecret now rtId rtString db emailK pK =
      .error .errInvalidCredentials ∧
    UserHandler.Login verify jwtSecret now rtId rtString db emailU pU =
      UserHandler.Login verify jwtSecret now rtId rtString db emailK pK ∧
    UserHandler.Login verify jwtSecret now rtId rtString db emailU pU =
      ⟨401, "invalid email or password"⟩ := by
  have h1 : UserService.Login verify jwtSecret now rtId rtString db emailU pU =
      .error .errInvalidCredentials := by
    simp [UserService.Login, hunknown]
  have h2 : UserService.Login verify jwtSecret now rtId rtString db emailK pK =
      .error .errInvalidCredentials := by
    simp [UserService.Login, hknown, hwrong]
  refine ⟨h1, h2, ?_, ?_⟩
  · simp [UserHandler.Login, h1, h2]
  · simp [UserHandler.Login, h1]

/-- Closed instance of C2: unknown `bob@x.com` versus `alice@x.com` with a
wrong password. -/
theorem login_failure_causes_indistinguishable_witness :
    UserService.Login sampleVerify "s" 0 "rid" "rt-9" sampleDB "bob@x.com" "pw" =
      .error .errInvalidCredentials ∧
    UserService.Login sampleVerify "s" 0 "rid" "rt-9" sampleDB "alice@x.com" "WrongPass" =
      .error .errInvalidCredentials ∧
    UserHandler.Login sampleVerify "s" 0 "rid" "rt-9" sampleDB "bob@x.com" "pw" =
      UserHandler.Login sampleVerify "s" 0 "rid" "rt-9" sampleDB "alice@x.com" "WrongPass" ∧
    UserHandler.Login sampleVerify "s" 0 "rid" "rt-9" sampleDB "bob@x.com" "pw" =
      ⟨401, "invalid email or password"⟩ :=
  login_failure_causes_indistinguishable sampleVerify "s" 0 "rid" "rt-9" sampleDB
    "bob@x.com" "pw" "alice@x.com" "WrongPass" alice rfl rfl (by decide)

/-- C8: a successful `RefreshToken` leaves the store untouched (no rotation,
no mutation of the stored record), issues an access token carrying the owning
user's current id and role, and the same refresh token remains usable at any
later non-expired instant. -/
theorem refresh_does_not_rotate (jwtSecret : String) (now : Int) (db : DB)
    (s : String) (rt : RefreshToken) (u : User)
    (hfind : RefreshTokenRepository.FindByToken db s = .ok rt)
    (hlive : ¬ rt.expiresAt < now)
    (huser : UserRepository.FindByID db rt.userId = .ok u) :
    UserService.RefreshToken jwtSecret now db s =
      .ok (generateAccessToken jwtSecret now u, db) ∧
    (generateAccessToken jwtSecret now u).role = some u.role ∧
    (generateAccessToken jwtSecret now u).userID = some u.id ∧
    (∀ now2, ¬ rt.expiresAt < now2 →
      UserService.RefreshToken jwtSecret now2 db s =
        .ok (generateAccessToken jwtSecret now2 u, db)) := by
  have hmain : ∀ n2 : Int, ¬ rt.expiresAt < n2 →
      UserService.RefreshToken jwtSecret n2 db s =
        .ok (generateAccessToken jwtSecret n2 u, db) := by
    intro n2 h2
    simp [UserService.RefreshToken, hfind, h2, huser]
  exact ⟨hmain now hlive, rfl, rfl, hmain⟩

/-- Closed instance of C8 at the sample store. -/
theorem refresh_does_not_rotate_witness :
    UserService.RefreshToken "s" 100 sampleDB "rt-1" =
      .ok (generateAccessToken "s" 100 alice, sampleDB) ∧
    (generateAccessToken "s" 100 alice).role = some alice.role ∧
    (generateAccessToken "s" 100 alice).userID = some alice.id ∧
    (∀ now2, ¬ sampleRT.expiresAt < now2 →
      UserService.RefreshToken "s" now2 sampleDB "rt-1" =
        .ok (generateAccessToken "s" now2 alice, sampleDB)) :=
  refresh_does_not_rotate "s" 100 sampleDB "rt-1" sampleRT alice
    rfl (by decide) rfl

/-- C9: in the Auth Gate an expired, correctly signed token reaches the
`err == jwt.ErrTokenExpired` comparison as a wrapped error, never as the bare
sentinel, so the dedicated "token expired" branch is dead: the gate answers
401 "invalid token" for the expired token, exactly as it does for a token
with a bad signature, contradicting the claimed distinct "expired" reason. -/
theorem expired_token_reason_collapsed :
    jwtParse (gateKeyfunc "secret") 200
        (.tok ⟨.HS256, some "u", some "user", some 100, some 0, .HS256, "secret"⟩) =
      .error (.wrappedErr .tokenInvalidClaims (.sentinel .tokenExpired)) ∧
    (JWTError.wrappedErr .tokenInvalidClaims (.sentinel .tokenExpired) ≠
      JWTError.sentinel .tokenExpired) ∧
    AuthMiddleware
        (fun _ => .tok ⟨.HS256, some "u", some "user", some 100, some 0, .HS256, "secret"⟩)
        "secret" 200 "Bearer x" = .rejected 401 "invalid token" ∧
    AuthMiddleware
        (fun _ => .tok ⟨.HS256, some "u", some "user", some 100, some 0, .HS256, "other"⟩)
        "secret" 200 "Bearer x" = .rejected 401 "invalid token" :=
  ⟨rfl, by decide, by decide, by decide⟩

/-- Computation of the Auth Gate on a well-formed `Bearer x` header: the
outcome is decided by `jwt.Parse` on the decoded token. -/
theorem authMiddleware_bearer_x (decode : String → TokenInput) (jwtSecret : String)
    (now : Int) :
    AuthMiddleware decode jwtSecret now "Bearer x" =
      (match jwtParse (gateKeyfunc jwtSecret) now (decode "x") with
       | .error e =>
         if e = .sentinel .tokenExpired then .rejected 401 "token expired"
         else .rejected 401 "invalid token"
       | .ok t =>
         match t.userID with
         | none => .rejected 401 "invalid token claims"
         | some uid =>
           match t.role with
           | none => .rejected 401 "invalid token claims"
           | some role => .authenticated uid role) := rfl

/-- C5 fails as stated: a token whose header names HS384 — an algorithm
other than the HS256 used for issuance — but which is MACed with the shared
secret is accepted by both `ValidateToken` and the Auth Gate, because the
code only checks membership in the `*jwt.SigningMethodHMAC` family. -/
theorem validate_accepts_hs384_counterexample :
    UserService.ValidateToken "secret" 10
        (.tok ⟨.HS384, some "u1", some "user", some 1000, some 0, .HS384, "secret"⟩) =
      .ok ⟨.HS384, some "u1", some "user", some 1000, some 0, .HS384, "secret"⟩ ∧
    AuthMiddleware
        (fun _ => .tok ⟨.HS384, some "u1", some "user", some 1000, some 0, .HS384, "secret"⟩)
        "secret" 10 "Bearer x" = .authenticated "u1" "user" :=
  ⟨rfl, by decide⟩

/-- C5 (amended): verification allow-lists the symmetric HMAC family.  For
every incoming token whose header names a non-HMAC algorithm, both keyfuncs
fail before any verification key is produced, `jwt.Parse` propagates that
failure (so the signature is never checked against a key selected by the
attacker-controlled algorithm), `ValidateToken` errors, and the Auth Gate
rejects with 401. -/
theorem verification_rejects_non_hmac (t : JWT) (jwtSecret : String) (now : Int)
    (h : t.alg.isHMAC = false) :
    gateKeyfunc jwtSecret t = .error (.sentinel .signatureInvalid) ∧
    serviceKeyfunc jwtSecret t = .error (.plainMsg "unexpected signing method") ∧
    jwtParse (gateKeyfunc jwtSecret) now (.tok t) =
      .error (.wrappedErr .tokenUnverifiable (.sentinel .signatureInvalid)) ∧
    UserService.ValidateToken jwtSecret now (.tok t) =
      .error (.jwtWrapped "failed to parse token"
        (.wrappedErr .tokenUnverifiable (.plainMsg "unexpected signing method"))) ∧
    AuthMiddleware (fun _ => .tok t) jwtSecret now "Bearer x" =
      .rejected 401 "invalid token" := by
  have hg : gateKeyfunc jwtSecret t = .error (.sentinel .signatureInvalid) := by
    simp [gateKeyfunc, h]
  have hs : serviceKeyfunc jwtSecret t = .error (.plainMsg "unexpected signing method") := by
    simp [serviceKeyfunc, h]
  have hp : jwtParse (gateKeyfunc jwtSecret) now (.tok t) =
      .error (.wrappedErr .tokenUnverifiable (.sentinel .signatureInvalid)) := by
    simp [jwtParse, hg]
  refine ⟨hg, hs, hp, ?_, ?_⟩
  · simp [UserService.ValidateToken, jwtParse, hs]
  · rw [authMiddleware_bearer_x, hp]
    simp

/-- Closed instance of the amended C5 at an RS256 token. -/
theorem verification_rejects_non_hmac_witness :
    gateKeyfunc "secret" ⟨.RS256, some "u1", some "user", some 1000, some 0, .RS256, "secret"⟩ =
      .error (.sentinel .signatureInvalid) ∧
    serviceKeyfunc "secret" ⟨.RS256, some "u1", some "user", some 1000, some 0, .RS256, "secret"⟩ =
      .error (.plainMsg "unexpected signing method") ∧
    jwtParse (gateKeyfunc "secret") 10
        (.tok ⟨.RS256, some "u1", some "user", some 1000, some 0, .RS256, "secret"⟩) =
      .error (.wrappedErr .tokenUnverifiable (.sentinel .signatureInvalid)) ∧
    UserService.ValidateToken "secret" 10
        (.tok ⟨.RS256, some "u1", some "user", some 1000, some 0, .RS256, "secret"⟩) =
      .error (.jwtWrapped "failed to parse token"
        (.wrappedErr .tokenUnverifiable (.plainMsg "unexpected signing method"))) ∧
    AuthMiddleware
        (fun _ => .tok ⟨.RS256, some "u1", some "user", some 1000, some 0, .RS256, "secret"⟩)
        "secret" 10 "Bearer x" = .rejected 401 "invalid token" :=
  verification_rejects_non_hmac ⟨.RS256, some "u1", some "user", some 1000, some 0, .RS256, "secret"⟩
    "secret" 10 rfl

/-- C6: every successful Login issues an access token whose claim set is
exactly the user's id, the user's role, issued-at `now` and expires-at
`now + 15 minutes` (so `expiresAt − issuedAt = 15 * 60` seconds), and
`ValidateToken` at any instant before expiry returns that same claim set —
in particular claims whose `user_id` and `role` match the logged-in user. -/
theorem login_token_claims_and_lifetime
    (verify : String → String → Bool) (jwtSecret : String) (now : Int)
    (rtId rtString : String) (db : DB) (email password : String)
    (access : JWT) (rts : String) (u : User) (db2 : DB)
    (h : UserService.Login verify jwtSecret now rtId rtString db email password =
      .ok (access, rts, u, db2)) :
    access.userID = some u.id ∧ access.role = some u.role ∧
    access.iat = some now ∧ access.exp = some (now + AccessTokenExpiration) ∧
    (∃ e i, access.exp = some e ∧ access.iat = some i ∧ e - i = 15 * 60) ∧
    (∀ now2, now2 < now + AccessTokenExpiration →
      UserService.ValidateToken jwtSecret now2 (.tok access) = .ok access) := by
  unfold UserService.Login at h
  cases hfe : UserRepository.FindByEmail db email with
  | error e =>
    rw [hfe] at h
    by_cases he : e = .errUserNotFound <;> simp [he] at h
  | ok user =>
    rw [hfe] at h
    cases hv : verify user.passwordHash password
    · simp [hv] at h
    · simp only [hv, if_true, RefreshTokenRepository.Create, Except.ok.injEq,
        Prod.mk.injEq] at h
      obtain ⟨h1, _, h3, _⟩ := h
      subst h1
      subst h3
      refine ⟨rfl, rfl, rfl, rfl, ⟨now + AccessTokenExpiration, now, rfl, rfl, ?_⟩, ?_⟩
      · simp [AccessTokenExpiration]
      · intro now2 h2
        simp [UserService.ValidateToken, jwtParse, serviceKeyfunc,
          generateAccessToken, Alg.isHMAC, h2]

/-- Closed instance of C6: `alice` logs in at time 0 with the sample store. -/
theorem login_token_claims_and_lifetime_witness :
    sampleAccess.userID = some alice.id ∧ sampleAccess.role = some alice.role ∧
    sampleAccess.iat = some 0 ∧ sampleAccess.exp = some (0 + AccessTokenExpiration) ∧
    (∃ e i, sampleAccess.exp = some e ∧ sampleAccess.iat = some i ∧ e - i = 15 * 60) ∧
    (∀ now2, now2 < 0 + AccessTokenExpiration →
      UserService.ValidateToken "s" now2 (.tok sampleAccess) = .ok sampleAccess) :=
  login_token_claims_and_lifetime sampleVerify "s" 0 "rid" "rt-2" sampleDB "alice@x.com"
    "Secret123" sampleAccess "rt-2" alice sampleDBAfterLogin rfl

/-- C3: `RefreshToken` fails with `InvalidToken` exactly when the token
string is unknown or its record is revoked (both causes collapse to one
sentinel), and fails with `TokenExpired` exactly when the token is known,
non-revoked and `now > expiresAt` — the expiry check runs only for known,
non-revoked tokens.  The hypothesis is the store's unique constraint on
`refresh_tokens.token`. -/
theorem refresh_error_taxonomy (jwtSecret : String) (now : Int) (db : DB) (s : String)
    (huniq : ∀ a ∈ db.tokens, ∀ b ∈ db.tokens, a.token = b.token → a = b) :
    (UserService.RefreshToken jwtSecret now db s = .error .errInvalidToken ↔
      (∀ rt ∈ db.tokens, rt.token ≠ s) ∨
        ∃ rt ∈ db.tokens, rt.token = s ∧ rt.revoked = true) ∧
    (UserService.RefreshToken jwtSecret now db s = .error .errTokenExpired ↔
      ∃ rt ∈ db.tokens, rt.token = s ∧ rt.revoked = false ∧ rt.expiresAt < now) := by
  cases hf : db.tokens.find? (fun rt => rt.token == s) with
  | none =>
    have hall : ∀ rt ∈ db.tokens, rt.token ≠ s := by
      intro rt hrt
      have := List.find?_eq_none.mp hf rt hrt
      simpa using this
    have hsvc : UserService.RefreshToken jwtSecret now db s = .error .errInvalidToken := by
      simp [UserService.RefreshToken, RefreshTokenRepository.FindByToken, hf]
    refine ⟨⟨fun _ => Or.inl hall, fun _ => hsvc⟩, ⟨?_, ?_⟩⟩
    · intro hcon
      rw [hsvc] at hcon
      simp at hcon
    · rintro ⟨rt, hrt, hts, _⟩
      exact absurd hts (hall rt hrt)
  | some rt =>
    have hmem : rt ∈ db.tokens := List.mem_of_find?_eq_some hf
    have hts : rt.token = s := by simpa using List.find?_some hf
    cases hrev : rt.revoked with
    | true =>
      have hsvc : UserService.RefreshToken jwtSecret now db s = .error .errInvalidToken := by
        simp [UserService.RefreshToken, RefreshTokenRepository.FindByToken, hf, hrev]
      refine ⟨⟨fun _ => Or.inr ⟨rt, hmem, hts, hrev⟩, fun _ => hsvc⟩, ⟨?_, ?_⟩⟩
      · intro hcon
        rw [hsvc] at hcon
        simp at hcon
      · rintro ⟨rt2, hm2, ht2, hr2, _⟩
        have he : rt2 = rt := huniq rt2 hm2 rt hmem (by rw [ht2, hts])
        rw [he, hrev] at hr2
        exact absurd hr2 (by simp)
    | false =>
      by_cases hexp : rt.expiresAt < now
      · have hsvc : UserService.RefreshToken jwtSecret now db s = .error .errTokenExpired := by
          simp [UserService.RefreshToken, RefreshTokenRepository.FindByToken, hf, hrev, hexp]
        refine ⟨⟨?_, ?_⟩, ⟨fun _ => ⟨rt, hmem, hts, hrev, hexp⟩, fun _ => hsvc⟩⟩
        · intro hcon
          rw [hsvc] at hcon
          simp at hcon
        · rintro (hall | ⟨rt2, hm2, ht2, hr2⟩)
          · exact absurd hts (hall rt hmem)
          · have he : rt2 = rt := huniq rt2 hm2 rt hmem (ht2.trans hts.symm)
            rw [he, hrev] at hr2
            exact absurd hr2 (by simp)
      · have hne : ∀ gerr : GoErr,
            gerr = .errInvalidToken ∨ gerr = .errTokenExpired →
            UserService.RefreshToken jwtSecret now db s ≠ .error gerr := by
          intro gerr hg
          cases hu : UserRepository.FindByID db rt.userId with
          | error e =>
            rcases hg with rfl | rfl <;>
              simp [UserService.RefreshToken, RefreshTokenRepository.FindByToken,
                hf, hrev, hexp, hu]
          | ok user =>
            rcases hg with rfl | rfl <;>
              simp [UserService.RefreshToken, RefreshTokenRepository.FindByToken,
                hf, hrev, hexp, hu]
        refine ⟨⟨?_, ?_⟩, ⟨?_, ?_⟩⟩
        · intro hcon
          exact absurd hcon (hne _ (Or.inl rfl))
        · rintro (hall | ⟨rt2, hm2, ht2, hr2⟩)
          · exact absurd hts (hall rt hmem)
          · have he : rt2 = rt := huniq rt2 hm2 rt hmem (ht2.trans hts.symm)
            rw [he, hrev] at hr2
            exact absurd hr2 (by simp)
        · intro hcon
          exact absurd hcon (hne _ (Or.inr rfl))
        · rintro ⟨rt2, hm2, ht2, _, hx2⟩
          have he : rt2 = rt := huniq rt2 hm2 rt hmem (ht2.trans hts.symm)
          rw [he] at hx2
          exact absurd hx2 hexp

/-- Closed instance of C3 at the sample store. -/
theorem refresh_error_taxonomy_witness :
    (UserService.RefreshToken "s" 0 sampleDB "rt-1" = .error .errInvalidToken ↔
      (∀ rt ∈ sampleDB.tokens, rt.token ≠ "rt-1") ∨
        ∃ rt ∈ sampleDB.tokens, rt.token = "rt-1" ∧ rt.revoked = true) ∧
    (UserService.RefreshToken "s" 0 sampleDB "rt-1" = .error .errTokenExpired ↔
      ∃ rt ∈ sampleDB.tokens, rt.token = "rt-1" ∧ rt.revoked = false ∧ rt.expiresAt < 0) :=
  refresh_error_taxonomy "s" 0 sampleDB "rt-1" (by decide)

/-- A freshly stored binding is what `rawLookup` finds. -/
theorem rawLookup_set_self (r : Redis) (key : String) (e : RedisEntry) :
    rawLookup (redisSet r key e) key = some e := by
  simp [rawLookup, redisSet, List.find?_cons]

/-- One limiter pass on a live key: the counter is incremented whatever the
decision, the expiry is untouched, and a rejection's `Retry-After` is the
residual TTL. -/
theorem rateLimitStep_live (cfg : RateLimitConfig) (r : Redis) (key : String)
    (now c E : Int) (hraw : rawLookup r key = some ⟨c, some E⟩)
    (hc : 1 ≤ c) (hnow : now < E) :
    RateLimitMiddleware cfg r key now =
      ((if cfg.RequestsPerWindow < c + 1 then Decision.rejected (E - now)
        else Decision.allowed (cfg.RequestsPerWindow - (c + 1))),
       redisSet r key ⟨c + 1, some E⟩) := by
  have hl : redisLookup r key now = some ⟨c, some E⟩ := by
    simp [redisLookup, hraw, hnow]
  have h1 : ¬ (c + 1 = (1 : Int)) := by omega
  have httl : redisTTL (redisSet r key ⟨c + 1, some E⟩) key now = E - now := by
    simp [redisTTL, redisLookup, rawLookup_set_self, hnow]
  by_cases hb : cfg.RequestsPerWindow < c + 1 <;>
    simp [RateLimitMiddleware, redisIncr, hl, h1, hb, httl]

/-- One limiter pass on an absent or expired key: the key is recreated with
count 1 and its TTL set to the window. -/
theorem rateLimitStep_dead (cfg : RateLimitConfig) (r : Redis) (key : String)
    (now : Int) (hdead : redisLookup r key now = none) :
    RateLimitMiddleware cfg r key now =
      ((if cfg.RequestsPerWindow < 1 then
          Decision.rejected (redisTTL (redisSet (redisSet r key ⟨1, none⟩) key
            ⟨1, some (now + cfg.Window)⟩) key now)
        else Decision.allowed (cfg.RequestsPerWindow - 1)),
       redisSet (redisSet r key ⟨1, none⟩) key ⟨1, some (now + cfg.Window)⟩) := by
  have hx : redisExpire (redisSet r key ⟨1, none⟩) key now cfg.Window =
      redisSet (redisSet r key ⟨1, none⟩) key ⟨1, some (now + cfg.Window)⟩ := by
    simp [redisExpire, redisLookup, rawLookup_set_self]
  by_cases hb : cfg.RequestsPerWindow < 1 <;>
    simp [RateLimitMiddleware, redisIncr, hdead, hx, hb]

/-- Running the limiter over requests that all fall before the live window's
expiry: the decision trace is `expectedDecisions` and the counter advances by
one per request with the expiry unchanged. -/
theorem runLimiter_live (cfg : RateLimitConfig) (key : String) (E : Int) :
    ∀ (ts : List Int) (r : Redis) (c : Int),
      rawLookup r key = some ⟨c, some E⟩ → 1 ≤ c → (∀ t ∈ ts, t < E) →
      (runLimiter cfg key ts r).fst =
        expectedDecisions cfg.RequestsPerWindow E c ts ∧
      rawLookup (runLimiter cfg key ts r).snd key =
        some ⟨c + (ts.length : Int), some E⟩ := by
  intro ts
  induction ts with
  | nil =>
    intro r c hraw _ _
    constructor
    · rfl
    · simpa [runLimiter] using hraw
  | cons t ts ih =>
    intro r c hraw hc hin
    have hstep := rateLimitStep_live cfg r key t c E hraw hc (hin t (List.mem_cons_self t ts))
    have hih := ih (redisSet r key ⟨c + 1, some E⟩) (c + 1)
      (rawLookup_set_self r key ⟨c + 1, some E⟩) (by omega)
      (fun x hx => hin x (List.mem_cons_of_mem t hx))
    constructor
    · simp only [runLimiter, hstep, expectedDecisions, hih.1]
    · simp only [runLimiter, hstep, List.length_cons]
      rw [hih.2]
      congr 2
      omega

/-- `expectedDecisions` has one decision per request. -/
theorem expectedDecisions_length (n e : Int) :
    ∀ (ts : List Int) (c : Int), (expectedDecisions n e c ts).length = ts.length := by
  intro ts
  induction ts with
  | nil => intro c; rfl
  | cons t ts ih => intro c; simp [expectedDecisions, ih]

/-- Pointwise description of `expectedDecisions`: the `i`-th request is the
`(c+i+1)`-th hit of the window. -/
theorem expectedDecisions_getD (n e : Int) :
    ∀ (ts : List Int) (c : Int) (i : Nat), i < ts.length →
      (expectedDecisions n e c ts).getD i (.allowed 0) =
        if n < c + (i : Int) + 1 then Decision.rejected (e - ts.getD i 0)
        else Decision.allowed (n - (c + (i : Int) + 1)) := by
  intro ts
  induction ts with
  | nil =>
    intro c i h
    simp at h
  | cons t ts ih =>
    intro c i h
    cases i with
    | zero => simp [expectedDecisions]
    | succ j =>
      have hj : j < ts.length := by simpa using h
      simp only [expectedDecisions, List.getD_cons_succ]
      rw [ih (c + 1) j hj]
      have harith : c + 1 + (j : Int) + 1 = c + ((j : Nat) + 1 : Nat) + 1 := by
        push_cast
        ring
      rw [harith]

/-- C7: starting from no live window, the first request at `t1` creates the
window (counter 1, TTL = the window length), the first `N` requests of the
window are admitted with decreasing remaining quota, every later request in
the window is rejected with a positive `Retry-After` (HTTP 429), and once
the TTL has lapsed the counter resets via expiry: the next request is
admitted again as the first of a fresh window. -/
theorem rate_limiter_window_exactness (n w : Int) (key : String) (r0 : Redis)
    (t1 : Int) (rest : List Int)
    (hdead : redisLookup r0 key t1 = none) (hw : 0 < w) (hn : 1 ≤ n)
    (hin : ∀ t ∈ rest, t1 ≤ t ∧ t < t1 + w) :
    (runLimiter ⟨n, w⟩ key (t1 :: rest) r0).fst.length = rest.length + 1 ∧
    (∀ i : Nat, i < rest.length + 1 →
      (((i : Int) + 1 ≤ n →
        (runLimiter ⟨n, w⟩ key (t1 :: rest) r0).fst.getD i (.allowed 0) =
          .allowed (n - ((i : Int) + 1))) ∧
       (n < (i : Int) + 1 →
        ∃ ra, (runLimiter ⟨n, w⟩ key (t1 :: rest) r0).fst.getD i (.allowed 0) =
          .rejected ra ∧ 0 < ra))) ∧
    (∀ t2 : Int, t1 + w ≤ t2 →
      (RateLimitMiddleware ⟨n, w⟩ (runLimiter ⟨n, w⟩ key (t1 :: rest) r0).snd key t2).fst =
        .allowed (n - 1)) := by
  have hstep : RateLimitMiddleware ⟨n, w⟩ r0 key t1 =
      (Decision.allowed (n - 1),
       redisSet (redisSet r0 key ⟨1, none⟩) key ⟨1, some (t1 + w)⟩) := by
    rw [rateLimitStep_dead ⟨n, w⟩ r0 key t1 hdead]
    simp [show ¬ (n < (1 : Int)) from by omega]
  have hlive := runLimiter_live ⟨n, w⟩ key (t1 + w) rest
      (redisSet (redisSet r0 key ⟨1, none⟩) key ⟨1, some (t1 + w)⟩) 1
      (rawLookup_set_self _ _ _) (le_refl 1) (fun t ht => (hin t ht).2)
  have hfst : (runLimiter ⟨n, w⟩ key rest
      (redisSet (redisSet r0 key ⟨1, none⟩) key ⟨1, some (t1 + w)⟩)).fst =
      expectedDecisions n (t1 + w) 1 rest := hlive.1
  have hrun : runLimiter ⟨n, w⟩ key (t1 :: rest) r0 =
      (Decision.allowed (n - 1) :: (runLimiter ⟨n, w⟩ key rest
        (redisSet (redisSet r0 key ⟨1, none⟩) key ⟨1, some (t1 + w)⟩)).fst,
       (runLimiter ⟨n, w⟩ key rest
        (redisSet (redisSet r0 key ⟨1, none⟩) key ⟨1, some (t1 + w)⟩)).snd) := by
    simp only [runLimiter, hstep]
  refine ⟨?_, ?_, ?_⟩
  · rw [hrun]
    simp [hfst, expectedDecisions_length]
  · intro i hi
    rw [hrun]
    cases i with
    | zero =>
      constructor
      · intro _
        norm_num
      · intro hcon
        exfalso
        norm_num at hcon
        omega
    | succ j =>
      have hj : j < rest.length := by simpa using hi
      simp only [List.getD_cons_succ]
      rw [hfst, expectedDecisions_getD n (t1 + w) rest 1 j hj]
      constructor
      · intro hA
        rw [if_neg (by push_cast at hA ⊢; omega)]
        congr 1
        push_cast
        ring
      · intro hB
        rw [if_pos (by push_cast at hB ⊢; omega)]
        refine ⟨t1 + w - rest.getD j 0, rfl, ?_⟩
        have hmem : rest.getD j 0 ∈ rest := by
          rw [List.getD_eq_getElem rest 0 hj]
          exact List.getElem_mem hj
        have := (hin _ hmem).2
        omega
  · intro t2 ht2
    rw [hrun]
    have hdead2 : redisLookup (runLimiter ⟨n, w⟩ key rest
        (redisSet (redisSet r0 key ⟨1, none⟩) key ⟨1, some (t1 + w)⟩)).snd key t2 = none := by
      simp [redisLookup, hlive.2, show ¬ (t2 < t1 + w) from by omega]
    rw [rateLimitStep_dead ⟨n, w⟩ _ key t2 hdead2]
    simp [show ¬ (n < (1 : Int)) from by omega]

/-- Closed instance of C7: threshold 2, window 60s, requests at 0, 10, 20
and 30 seconds. -/
theorem rate_limiter_window_exactness_witness :
    (runLimiter ⟨2, 60⟩ "k" [0, 10, 20, 30] []).fst.length = [10, 20, 30].length + 1 ∧
    (∀ i : Nat, i < [10, 20, 30].length + 1 →
      (((i : Int) + 1 ≤ 2 →
        (runLimiter ⟨2, 60⟩ "k" [0, 10, 20, 30] []).fst.getD i (.allowed 0) =
          .allowed (2 - ((i : Int) + 1))) ∧
       ((2 : Int) < (i : Int) + 1 →
        ∃ ra, (runLimiter ⟨2, 60⟩ "k" [0, 10, 20, 30] []).fst.getD i (.allowed 0) =
          .rejected ra ∧ 0 < ra))) ∧
    (∀ t2 : Int, 0 + 60 ≤ t2 →
      (RateLimitMiddleware ⟨2, 60⟩ (runLimiter ⟨2, 60⟩ "k" [0, 10, 20, 30] []).snd "k" t2).fst =
        .allowed (2 - 1)) :=
  rate_limiter_window_exactness 2 60 "k" [] 0 [10, 20, 30] rfl (by decide) (by decide)
    (by decide)

/-- C10: every request reaching the limiter increments the shared counter —
also one that will be rejected — while the window's expiry is only written
when the counter becomes 1 (key absent or expired); a request landing in a
live window never extends or resets that window's TTL. -/
theorem limiter_increment_and_window_invariant (n w : Int) (key : String)
    (r : Redis) (now : Int) :
    (∀ c E : Int, rawLookup r key = some ⟨c, some E⟩ → 1 ≤ c → now < E →
      rawLookup (RateLimitMiddleware ⟨n, w⟩ r key now).snd key = some ⟨c + 1, some E⟩) ∧
    (redisLookup r key now = none →
      rawLookup (RateLimitMiddleware ⟨n, w⟩ r key now).snd key =
        some ⟨1, some (now + w)⟩) := by
  constructor
  · intro c E hraw hc hnow
    rw [rateLimitStep_live ⟨n, w⟩ r key now c E hraw hc hnow]
    exact rawLookup_set_self r key ⟨c + 1, some E⟩
  · intro hdead
    rw [rateLimitStep_dead ⟨n, w⟩ r key now hdead]
    exact rawLookup_set_self _ key ⟨1, some (now + w)⟩

/-- Closed instance of C10: a throttled key at count 2 is pushed to 3 with
its expiry untouched; the same key after expiry restarts at count 1 with a
fresh TTL. -/
theorem limiter_increment_and_window_invariant_witness :
    rawLookup (RateLimitMiddleware ⟨5, 60⟩ [("k", ⟨2, some 100⟩)] "k" 50).snd "k" =
      some ⟨3, some 100⟩ ∧
    rawLookup (RateLimitMiddleware ⟨5, 60⟩ [("k", ⟨2, some 100⟩)] "k" 200).snd "k" =
      some ⟨1, some (200 + 60)⟩ :=
  ⟨(limiter_increment_and_window_invariant 5 60 "k" [("k", ⟨2, some 100⟩)] 50).1 2 100
      rfl (by decide) (by decide),
   (limiter_increment_and_window_invariant 5 60 "k" [("k", ⟨2, some 100⟩)] 200).2 rfl⟩
